import Mathlib

/-!
# Verification of the `myBind` polyfill (`src/Polyfill for bind method/index.js`)

The repository's one engineered artifact is a hand-rolled polyfill for
`Function.prototype.bind`:

```js
Function.prototype.myBind = function(...args){
    let obj = this;
    let params = args.slice(1);
    return function(...args2){
        obj.apply(args[0],[...params , ...args2]);
    }
}
```

We embed the fragment of JavaScript this code exercises:

* `Value` is the value universe: `undefined`, integers, strings, plain
  objects (a field list together with the internal prototype link; the
  source never mutates an object, so objects are modelled structurally),
  and references into a table of function objects.
* A function object (`FnObj`) is either a user function (its body is drawn
  from a fixed context `Ctx` of pure `receiver → args → result` maps — every
  function in the source file only reads fields of its receiver and returns
  or logs a value, it never mutates state or calls another function) or a
  closure produced by `myBind`, which captures the function value `myBind`
  was invoked on (`obj = this` in the source) and the full bind-time
  argument list `args` (the source precomputes `params = args.slice(1)`;
  the closure body below recomputes `args.slice(1)` from the captured
  `args`, which is the same list since `args` is never written to).
* `apply fuel callee thisV args` is the invocation primitive
  (`f.apply(thisV, args)`): it returns the result value plus a trace of
  every user-function call made (the call's receiver and argument list),
  so that "`f` is invoked with receiver r and arguments a" is a statement
  about the trace.  JavaScript runtime failures (calling a non-function)
  are `none`.  Fuel bounds the nesting of bound closures.
* `construct` models `new f(args)`: a fresh object whose prototype link is
  the function's `.prototype` value becomes the call-site receiver, and the
  fresh object is the result unless the body returned an object.
* `myBind fns thisFn args` models a call
  `Function.prototype.myBind.call(thisFn, ...args)`: it inspects nothing,
  allocates one closure (with a fresh default `.prototype` object, modelled
  as an empty object — its real `constructor` back-pointer and
  `Object.prototype` link carry no user data and are elided) and returns a
  reference to it.
-/

/-- JavaScript values, restricted to what the source manipulates.
An object is its field list plus its internal prototype link
(`Value.undef` standing for a `null` prototype). -/
inductive Value where
  | undef : Value
  | int : Int → Value
  | str : String → Value
  | obj : List (String × Value) → Value → Value
  | fnRef : Nat → Value

/-- `args[i]` in JavaScript: `undefined` when the index is out of range. -/
def getArg (args : List Value) (i : Nat) : Value :=
  args.getD i Value.undef

/-- Property lookup `v[k]` walking the prototype chain; `undefined` when the
chain runs out or the base is not an object. -/
def lookupField : Value → String → Value
  | Value.obj fields proto, k =>
    match fields.lookup k with
    | some v => v
    | none => lookupField proto k
  | _, _ => Value.undef

/-- `typeof v === 'object'`-or-function, as `new` classifies return values. -/
def isObject : Value → Bool
  | Value.obj _ _ => true
  | Value.fnRef _ => true
  | _ => false

/-- The code of a function object: either a user-written function (an index
into the context of bodies), or the closure `myBind` returns, capturing
`obj` (the bound target) and `args` (the full bind-time argument list,
whose head is the receiver and whose tail is the argument prefix). -/
inductive FnCode where
  | user : Nat → FnCode
  | myBound : Value → List Value → FnCode

/-- A function object: its code and its `.prototype` property. -/
structure FnObj where
  code : FnCode
  proto : Value

/-- One observable user-function call: which body ran, with which receiver
(`this`) and which argument list. -/
structure Call where
  fn : Nat
  receiver : Value
  args : List Value

/-- User-function bodies: pure maps from receiver and argument list to the
returned value (a JavaScript function with no `return` yields
`Value.undef`). -/
abbrev Ctx := List (Value → List Value → Value)

/-- The function table; `myBind` appends to it, nothing ever updates it. -/
abbrev Fns := List FnObj

/-- `callee.apply(thisV, args)`.  A user body runs and is recorded in the
trace.  A `myBound` closure runs its source body
`obj.apply(args[0], [...params, ...args2])`: the captured target is applied
with the captured receiver `args[0]` and the captured prefix
`args.slice(1)` followed by the call-time arguments; the body has no
`return` statement, so the closure's own result is `undefined` whatever the
inner application returned.  Applying a non-function or a dangling
reference is a runtime failure (`none`), as is fuel exhaustion. -/
def apply (ctx : Ctx) (fns : Fns) :
    Nat → Value → Value → List Value → Option (List Call × Value)
  | 0, _, _, _ => none
  | fuel + 1, callee, thisV, args =>
    match callee with
    | Value.fnRef i =>
      match fns.get? i with
      | some fo =>
        match fo.code with
        | FnCode.user idx =>
          match ctx.get? idx with
          | some body => some ([⟨idx, thisV, args⟩], body thisV args)
          | none => none
        | FnCode.myBound target bindArgs =>
          (apply ctx fns fuel target (getArg bindArgs 0)
              (bindArgs.drop 1 ++ args)).map
            (fun p => (p.1, Value.undef))
      | none => none
    | _ => none

/-- `new callee(...args)`: allocate a fresh object whose prototype link is
the callee's `.prototype`, run the callee with the fresh object as
receiver, and produce the fresh object unless the body returned an
object. -/
def construct (ctx : Ctx) (fns : Fns) (fuel : Nat) (callee : Value)
    (args : List Value) : Option (List Call × Value) :=
  match callee with
  | Value.fnRef i =>
    match fns.get? i with
    | some fo =>
      (apply ctx fns fuel callee (Value.obj [] fo.proto) args).map
        (fun p => (p.1, if isObject p.2 then p.2 else Value.obj [] fo.proto))
    | none => none
  | _ => none

/-- `Function.prototype.myBind.call(thisFn, ...args)`, translated from the
source: it reads nothing from `thisFn` (in particular it performs no
callability check), allocates one closure capturing `thisFn` and `args`
(with a fresh default `.prototype` object), and returns the reference. -/
def myBind (fns : Fns) (thisFn : Value) (args : List Value) : Value × Fns :=
  (Value.fnRef fns.length,
    fns ++ [⟨FnCode.myBound thisFn args, Value.obj [] Value.undef⟩])

/-- Body of the concrete scenario function
`f(x, y) { return this.base + x + y }`. -/
def baseAddBody : Value → List Value → Value :=
  fun r args =>
    match lookupField r "base", getArg args 0, getArg args 1 with
    | Value.int b, Value.int x, Value.int y => Value.int (b + x + y)
    | _, _, _ => Value.undef

/-- Auxiliary: a `get?` hit is within bounds. -/
theorem get?_lt_of_some {l : Fns} {i : Nat} {fo : FnObj}
    (h : l.get? i = some fo) : i < l.length := by
  by_contra hge
  rw [List.get?_eq_none.mpr (Nat.le_of_not_lt hge)] at h
  cases h

/-- Invocation is stable under extending the function table: a call that
succeeds in `fns` succeeds with the same observable in `fns ++ ext`, so
later allocations (for instance by further `myBind` calls) cannot change
the behavior of already-existing callables. -/
theorem apply_append (ctx : Ctx) (fns ext : Fns) (fuel : Nat) :
    ∀ (callee thisV : Value) (args : List Value) (res : List Call × Value),
      apply ctx fns fuel callee thisV args = some res →
      apply ctx (fns ++ ext) fuel callee thisV args = some res := by
  induction fuel with
  | zero =>
    intro c t a res h
    simp [apply] at h
  | succ n ih =>
    intro c t a res h
    cases c with
    | fnRef i =>
      simp only [apply] at h ⊢
      cases hget : fns.get? i with
      | none =>
        rw [hget] at h
        exact Option.noConfusion h
      | some fo =>
        have hlt : i < fns.length := get?_lt_of_some hget
        obtain ⟨code, proto⟩ := fo
        cases code with
        | user idx =>
          simp only [hget, List.get?_append hlt] at h ⊢
          exact h
        | myBound target bindArgs =>
          simp only [hget, List.get?_append hlt] at h ⊢
          cases happ : apply ctx fns n target (getArg bindArgs 0)
              (bindArgs.drop 1 ++ a) with
          | none =>
            rw [happ] at h
            simp at h
          | some p =>
            rw [happ] at h
            rw [ih _ _ _ _ happ]
            exact h
    | undef => simp [apply] at h
    | int m => simp [apply] at h
    | str s => simp [apply] at h
    | obj fs p => simp [apply] at h

/-- Invocation is deterministic across step budgets: a call that succeeds
with fuel `n` yields the same observable with any fuel `m ≥ n`. -/
theorem apply_fuel_le (ctx : Ctx) (fns : Fns) :
    ∀ (n m : Nat), n ≤ m →
      ∀ (callee thisV : Value) (args : List Value) (res : List Call × Value),
        apply ctx fns n callee thisV args = some res →
        apply ctx fns m callee thisV args = some res := by
  intro n
  induction n with
  | zero =>
    intro m _ c t a res h
    simp [apply] at h
  | succ n ih =>
    intro m hm c t a res h
    cases m with
    | zero => cases (Nat.not_succ_le_zero _ hm)
    | succ m' =>
      have hm' : n ≤ m' := Nat.le_of_succ_le_succ hm
      cases c with
      | fnRef i =>
        simp only [apply] at h ⊢
        cases hget : fns.get? i with
        | none =>
          rw [hget] at h
          exact Option.noConfusion h
        | some fo =>
          obtain ⟨code, proto⟩ := fo
          cases code with
          | user idx =>
            simp only [hget] at h ⊢
            exact h
          | myBound target bindArgs =>
            simp only [hget] at h ⊢
            cases happ : apply ctx fns n target (getArg bindArgs 0)
                (bindArgs.drop 1 ++ a) with
            | none =>
              rw [happ] at h
              simp at h
            | some p =>
              rw [happ] at h
              rw [ih m' hm' _ _ _ _ happ]
              exact h
      | undef => simp [apply] at h
      | int k => simp [apply] at h
      | str s => simp [apply] at h
      | obj fs p => simp [apply] at h

/-- One invocation step of a `myBind` closure, read off the source body
`obj.apply(args[0], [...params, ...args2])`: whatever the call-site
receiver `t`, the captured target is applied with the captured receiver
`args[0]` and the captured prefix followed by the call-time arguments, and
the closure's own result is `undefined`. -/
theorem apply_myBound {ctx : Ctx} {fns : Fns} {i : Nat} {f p : Value}
    {bargs : List Value} (fuel : Nat) (t : Value) (T : List Value)
    (h : fns.get? i = some ⟨FnCode.myBound f bargs, p⟩) :
    apply ctx fns (fuel + 1) (Value.fnRef i) t T
      = (apply ctx fns fuel f (getArg bargs 0) (bargs.drop 1 ++ T)).map
          (fun q => (q.1, Value.undef)) := by
  simp only [apply, h]

/-- C5: re-binding a bound callable composes prefixes left-to-right and
ignores the new receiver: whenever `f` applied with receiver `r` and
arguments `as ++ bs ++ T` yields the observable `(tr, v)`,
`myBind (myBind f [r, ...as]) [r2, ...bs]` invoked with any call-site
receiver and trailing arguments `T` produces exactly the same observable as
`myBind f [r, ...as, ...bs]` invoked likewise: both make the user calls
`tr` (so `f` runs with receiver `r` — `r2` is ignored — and arguments
`as ++ bs ++ T`) and both return `undefined` (each closure layer discards
the inner result identically, so the two bound callables are
observationally equal). -/
theorem myBind_rebind_composes (ctx : Ctx) (fns : Fns) (f r r2 t t' : Value)
    (as bs T : List Value) (n : Nat) (tr : List Call) (v : Value)
    (h : apply ctx fns n f r (as ++ bs ++ T) = some (tr, v)) :
    (apply ctx
        (myBind (myBind fns f (r :: as)).2 (myBind fns f (r :: as)).1 (r2 :: bs)).2
        (n + 2)
        (myBind (myBind fns f (r :: as)).2 (myBind fns f (r :: as)).1 (r2 :: bs)).1
        t T
      = some (tr, Value.undef))
    ∧ (apply ctx (myBind fns f (r :: (as ++ bs))).2 (n + 1)
        (myBind fns f (r :: (as ++ bs))).1 t' T
      = some (tr, Value.undef)) := by
  have h' : apply ctx fns n f r (as ++ (bs ++ T)) = some (tr, v) := by
    rw [← List.append_assoc]
    exact h
  constructor
  · simp only [myBind, List.length_append, List.length_cons, List.length_nil]
    have hB : ((fns ++ [(⟨FnCode.myBound f (r :: as), Value.obj [] Value.undef⟩ : FnObj)]) ++
        [(⟨FnCode.myBound (Value.fnRef fns.length) (r2 :: bs), Value.obj [] Value.undef⟩ : FnObj)]).get?
          fns.length
        = some (⟨FnCode.myBound f (r :: as), Value.obj [] Value.undef⟩ : FnObj) := by
      rw [List.get?_append (by simp)]
      exact List.get?_concat_length _ _
    have hC : ((fns ++ [(⟨FnCode.myBound f (r :: as), Value.obj [] Value.undef⟩ : FnObj)]) ++
        [(⟨FnCode.myBound (Value.fnRef fns.length) (r2 :: bs), Value.obj [] Value.undef⟩ : FnObj)]).get?
          (fns.length + 1)
        = some (⟨FnCode.myBound (Value.fnRef fns.length) (r2 :: bs), Value.obj [] Value.undef⟩ : FnObj) := by
      have := List.get?_concat_length
        (fns ++ [(⟨FnCode.myBound f (r :: as), Value.obj [] Value.undef⟩ : FnObj)])
        (⟨FnCode.myBound (Value.fnRef fns.length) (r2 :: bs), Value.obj [] Value.undef⟩ : FnObj)
      simpa using this
    rw [apply_myBound (n + 1) t T hC]
    simp only [getArg, List.getD_cons_zero, List.drop_succ_cons, List.drop_zero]
    rw [apply_myBound n r2 (bs ++ T) hB]
    simp only [getArg, List.getD_cons_zero, List.drop_succ_cons, List.drop_zero]
    have h2 := apply_append ctx (fns ++ [(⟨FnCode.myBound f (r :: as), Value.obj [] Value.undef⟩ : FnObj)])
      [(⟨FnCode.myBound (Value.fnRef fns.length) (r2 :: bs), Value.obj [] Value.undef⟩ : FnObj)]
      n f r (as ++ (bs ++ T)) (tr, v)
      (apply_append ctx fns [(⟨FnCode.myBound f (r :: as), Value.obj [] Value.undef⟩ : FnObj)]
        n f r (as ++ (bs ++ T)) (tr, v) h')
    rw [h2]
    rfl
  · simp only [myBind]
    have hD : (fns ++ [(⟨FnCode.myBound f (r :: (as ++ bs)), Value.obj [] Value.undef⟩ : FnObj)]).get?
          fns.length
        = some (⟨FnCode.myBound f (r :: (as ++ bs)), Value.obj [] Value.undef⟩ : FnObj) :=
      List.get?_concat_length _ _
    rw [apply_myBound n t' T hD]
    simp only [getArg, List.getD_cons_zero, List.drop_succ_cons, List.drop_zero]
    rw [apply_append ctx fns [(⟨FnCode.myBound f (r :: (as ++ bs)), Value.obj [] Value.undef⟩ : FnObj)]
      n f r (as ++ bs ++ T) (tr, v) h]
    rfl

/-- C6: the capture of a bound callable is stable across invocations.  Two
invocations of the same `myBind` closure, with arbitrary (even different)
call-site receivers and different trailing arguments, both apply the
target to the *same* captured receiver `bargs[0]` and the *same* captured
prefix `bargs.slice(1)`, read unchanged from the closure's table entry;
invocation returns no updated table or object (the semantics is pure), so
neither the captured receiver nor the prefix is mutated by any number of
invocations. -/
theorem myBound_capture_stable (ctx : Ctx) (fns : Fns) (fuel i : Nat)
    (f p t1 t2 : Value) (bargs : List Value) (T1 T2 : List Value)
    (h : fns.get? i = some ⟨FnCode.myBound f bargs, p⟩) :
    (apply ctx fns (fuel + 1) (Value.fnRef i) t1 T1
      = (apply ctx fns fuel f (getArg bargs 0) (bargs.drop 1 ++ T1)).map
          (fun q => (q.1, Value.undef)))
    ∧ (apply ctx fns (fuel + 1) (Value.fnRef i) t2 T2
      = (apply ctx fns fuel f (getArg bargs 0) (bargs.drop 1 ++ T2)).map
          (fun q => (q.1, Value.undef))) :=
  ⟨apply_myBound fuel t1 T1 h, apply_myBound fuel t2 T2 h⟩

/-- C7: `myBind` has no side effect beyond allocating the one new bound
callable: every pre-existing function-table entry — in particular the
original callable being bound — is unchanged, exactly one entry is
appended, and the result is a reference to that fresh entry. -/
theorem myBind_no_side_effects (fns : Fns) (f : Value) (args : List Value)
    (i : Nat) (h : i < fns.length) :
    ((myBind fns f args).2.get? i = fns.get? i)
    ∧ ((myBind fns f args).2.length = fns.length + 1)
    ∧ ((myBind fns f args).1 = Value.fnRef fns.length) :=
  ⟨List.get?_append h, by simp [myBind], rfl⟩

/-- C8: invocation is deterministic — two runs of the same callable on the
same function table, receiver, and argument list that both complete
(under any step budgets) produce the same observable result. -/
theorem myBind_deterministic (ctx : Ctx) (fns : Fns) (callee thisV : Value)
    (T : List Value) (n1 n2 : Nat) (r1 r2 : List Call × Value)
    (h1 : apply ctx fns n1 callee thisV T = some r1)
    (h2 : apply ctx fns n2 callee thisV T = some r2) : r1 = r2 := by
  rcases Nat.le_total n1 n2 with hle | hle
  · have hx := apply_fuel_le ctx fns n1 n2 hle callee thisV T r1 h1
    rw [hx] at h2
    exact Option.some.inj h2
  · have hx := apply_fuel_le ctx fns n2 n1 hle callee thisV T r2 h2
    rw [hx] at h1
    exact (Option.some.inj h1).symm

/-- C9: the call-site receiver of a `myBind` closure is dead: plain
invocations with any two receivers coincide, every invocation applies the
captured target with the captured receiver `bargs[0]`, and constructor-mode
invocation (`new`) does the same — the freshly allocated instance is passed
as call-site receiver but never reaches the target, which still runs with
the captured receiver. -/
theorem myBound_ignores_call_site_receiver (ctx : Ctx) (fns : Fns)
    (fuel i : Nat) (f p t1 t2 : Value) (bargs : List Value) (T : List Value)
    (h : fns.get? i = some ⟨FnCode.myBound f bargs, p⟩) :
    (apply ctx fns (fuel + 1) (Value.fnRef i) t1 T
      = apply ctx fns (fuel + 1) (Value.fnRef i) t2 T)
    ∧ (apply ctx fns (fuel + 1) (Value.fnRef i) t1 T
      = (apply ctx fns fuel f (getArg bargs 0) (bargs.drop 1 ++ T)).map
          (fun q => (q.1, Value.undef)))
    ∧ (construct ctx fns (fuel + 1) (Value.fnRef i) T
      = (apply ctx fns fuel f (getArg bargs 0) (bargs.drop 1 ++ T)).map
          (fun q => (q.1, Value.obj [] p))) := by
  refine ⟨?_, apply_myBound fuel t1 T h, ?_⟩
  · rw [apply_myBound fuel t1 T h, apply_myBound fuel t2 T h]
  · simp only [construct, h]
    rw [apply_myBound fuel (Value.obj [] p) T h]
    cases apply ctx fns fuel f (getArg bargs 0) (bargs.drop 1 ++ T) with
    | none => rfl
    | some q => simp [isObject]

/-- C10: `myBind` invoked with no arguments at all still succeeds: the
resulting bound callable applies the original with receiver `undefined`
(`args[0]` on the empty argument list) and an empty captured prefix, so
the trailing arguments alone form the full argument sequence. -/
theorem myBind_zero_args (ctx : Ctx) (fns : Fns) (f t : Value)
    (T : List Value) (fuel : Nat) :
    apply ctx (myBind fns f []).2 (fuel + 1) (myBind fns f []).1 t T
      = (apply ctx (myBind fns f []).2 fuel f Value.undef T).map
          (fun q => (q.1, Value.undef)) := by
  have h : (myBind fns f []).2.get? fns.length
      = some ⟨FnCode.myBound f [], Value.obj [] Value.undef⟩ :=
    List.get?_concat_length _ _
  simp only [myBind] at h ⊢
  rw [apply_myBound fuel t T h]
  simp [getArg]

/-- Concrete context: the one user function is the scenario body. -/
def ctx0 : Ctx := [baseAddBody]

/-- Concrete table: entry 0 is the scenario function `f`. -/
def fns0 : Fns := [⟨FnCode.user 0, Value.obj [] Value.undef⟩]

/-- The scenario receiver `{base: 10}`. -/
def recv : Value := Value.obj [("base", Value.int 10)] Value.undef

/-- The table after `f.myBind(recv, 1)`: entry 1 is the bound closure. -/
def fns1 : Fns :=
  [⟨FnCode.user 0, Value.obj [] Value.undef⟩,
   ⟨FnCode.myBound (Value.fnRef 0) [recv, Value.int 1], Value.obj [] Value.undef⟩]

/-- C1 (code bug): the bound call does make exactly the user call the claim
demands — `f` with receiver `r` and arguments `a ++ b` — but its result is
`undefined`, not `f`'s return value, because the closure returned by
`myBind` has no `return` statement before `obj.apply`.  At the spec's own
scenario the direct call returns `13` while the bound call returns
`undefined`, refuting "same observable result including the return
value". -/
theorem myBind_drops_return_value :
    (apply ctx0 (myBind fns0 (Value.fnRef 0) [recv, Value.int 1]).2 2
        (myBind fns0 (Value.fnRef 0) [recv, Value.int 1]).1 Value.undef [Value.int 2]
      = some ([⟨0, recv, [Value.int 1, Value.int 2]⟩], Value.undef))
    ∧ (apply ctx0 fns0 1 (Value.fnRef 0) recv [Value.int 1, Value.int 2]
      = some ([⟨0, recv, [Value.int 1, Value.int 2]⟩], Value.int 13))
    ∧ Value.undef ≠ Value.int 13 :=
  ⟨rfl, rfl, fun hc => Value.noConfusion hc⟩

/-- C2 (code bug): in the scenario `f(x, y) = this.base + x + y` with
receiver `{base: 10}` and `bound = f.myBind(receiver, 1)`, the underlying
computation does happen and yields `13` (the trace shows `f` running with
receiver `{base: 10}` and arguments `[1, 2]`, and the body evaluates to
`13`), but `bound(2)` itself evaluates to `undefined`, not `13`: the
closure discards the result of `obj.apply`. -/
theorem myBind_scenario_returns_undefined :
    ((apply ctx0 (myBind fns0 (Value.fnRef 0) [recv, Value.int 1]).2 2
        (myBind fns0 (Value.fnRef 0) [recv, Value.int 1]).1 Value.undef [Value.int 2]).map
        (fun q => q.2)
      = some Value.undef)
    ∧ (baseAddBody recv [Value.int 1, Value.int 2] = Value.int 13)
    ∧ some Value.undef ≠ some (Value.int 13) :=
  ⟨rfl, rfl, fun hc => Value.noConfusion (Option.some.inj hc)⟩

/-- A value that is not callable. -/
def notAFunction : Value := Value.int 42

/-- C3 (code bug): `myBind` invoked on a non-callable raises nothing and
does allocate: the result is a fresh bound-callable reference and the
function table has grown by one entry; the type failure surfaces only
later, when the bound callable is invoked and the inner `obj.apply` on a
non-function fails.  This contradicts the claimed synchronous type error
with no allocation (which the Reademe.md polyfill, with its
`typeof this !== 'function'` guard, does implement). -/
theorem myBind_no_callable_check :
    ((myBind fns0 notAFunction [recv]).1 = Value.fnRef 1)
    ∧ ((myBind fns0 notAFunction [recv]).2.length = 2)
    ∧ (apply ctx0 (myBind fns0 notAFunction [recv]).2 5
        (myBind fns0 notAFunction [recv]).1 Value.undef [] = none) :=
  ⟨rfl, rfl, rfl⟩

/-- Constructor used in the constructor-mode counterexample: its body sets
nothing and returns `undefined`. -/
def ctorBody : Value → List Value → Value := fun _ _ => Value.undef

/-- `F.prototype`, carrying a delegated member `greet`. -/
def protoF : Value := Value.obj [("greet", Value.int 7)] Value.undef

/-- Context for the constructor-mode counterexample. -/
def ctxF : Ctx := [ctorBody]

/-- Table for the constructor-mode counterexample: entry 0 is `F`. -/
def fnsF : Fns := [⟨FnCode.user 0, protoF⟩]

/-- The receiver captured by the bind under test. -/
def recvR : Value := Value.obj [("who", Value.str "captured")] Value.undef

/-- C4 (code bug): constructor-mode invocation of a `myBind` closure.
`new (F.myBind(r))()` yields an instance whose prototype link is the
closure's own fresh default prototype — the member `greet` of
`F.prototype` is not reachable from it — while `new F()` yields an
instance delegating to `F.prototype`, where `greet` is `7`; moreover the
construction applies `F` with the captured receiver `r`, not with the
freshly allocated instance.  Both halves of the claim fail on `myBind`
(the Reademe.md polyfill's `fNOP`/`fBound` machinery is what would make
them hold). -/
theorem myBind_construct_wrong_chain :
    (construct ctxF (myBind fnsF (Value.fnRef 0) [recvR]).2 2
        (myBind fnsF (Value.fnRef 0) [recvR]).1 []
      = some ([⟨0, recvR, []⟩], Value.obj [] (Value.obj [] Value.undef)))
    ∧ (construct ctxF fnsF 1 (Value.fnRef 0) []
      = some ([⟨0, Value.obj [] protoF, []⟩], Value.obj [] protoF))
    ∧ (lookupField (Value.obj [] (Value.obj [] Value.undef)) "greet" = Value.undef)
    ∧ (lookupField (Value.obj [] protoF) "greet" = Value.int 7)
    ∧ recvR ≠ Value.obj [] (Value.obj [] Value.undef) :=
  ⟨rfl, rfl, rfl, rfl, by simp [recvR]⟩

/-- Witness for `myBind_rebind_composes` at the concrete scenario:
`f = fns0[0]`, `r = recv`, `as = [1]`, `bs = [2]`, `r2 = 0`, `T = []`. -/
theorem myBind_rebind_composes_witness :
    (apply ctx0 fns0 1 (Value.fnRef 0) recv ([Value.int 1] ++ [Value.int 2] ++ [])
      = some ([⟨0, recv, [Value.int 1, Value.int 2]⟩], Value.int 13))
    ∧ ((apply ctx0
        (myBind (myBind fns0 (Value.fnRef 0) [recv, Value.int 1]).2
          (myBind fns0 (Value.fnRef 0) [recv, Value.int 1]).1 [Value.int 0, Value.int 2]).2
        3
        (myBind (myBind fns0 (Value.fnRef 0) [recv, Value.int 1]).2
          (myBind fns0 (Value.fnRef 0) [recv, Value.int 1]).1 [Value.int 0, Value.int 2]).1
        Value.undef []
      = some ([⟨0, recv, [Value.int 1, Value.int 2]⟩], Value.undef))
    ∧ (apply ctx0 (myBind fns0 (Value.fnRef 0) [recv, Value.int 1, Value.int 2]).2 2
        (myBind fns0 (Value.fnRef 0) [recv, Value.int 1, Value.int 2]).1 Value.undef []
      = some ([⟨0, recv, [Value.int 1, Value.int 2]⟩], Value.undef))) :=
  ⟨rfl,
    myBind_rebind_composes ctx0 fns0 (Value.fnRef 0) recv (Value.int 0)
      Value.undef Value.undef [Value.int 1] [Value.int 2] [] 1
      [⟨0, recv, [Value.int 1, Value.int 2]⟩] (Value.int 13) rfl⟩

/-- Witness for `myBound_capture_stable`: the closure at `fns1[1]` invoked
with two different call-site receivers and trailing arguments. -/
theorem myBound_capture_stable_witness :
    (fns1.get? 1 = some ⟨FnCode.myBound (Value.fnRef 0) [recv, Value.int 1],
        Value.obj [] Value.undef⟩)
    ∧ ((apply ctx0 fns1 2 (Value.fnRef 1) Value.undef [Value.int 2]
      = (apply ctx0 fns1 1 (Value.fnRef 0) recv [Value.int 1, Value.int 2]).map
          (fun q => (q.1, Value.undef)))
    ∧ (apply ctx0 fns1 2 (Value.fnRef 1) (Value.int 5) [Value.int 3]
      = (apply ctx0 fns1 1 (Value.fnRef 0) recv [Value.int 1, Value.int 3]).map
          (fun q => (q.1, Value.undef)))) :=
  ⟨rfl,
    myBound_capture_stable ctx0 fns1 1 1 (Value.fnRef 0) (Value.obj [] Value.undef)
      Value.undef (Value.int 5) [recv, Value.int 1] [Value.int 2] [Value.int 3] rfl⟩

/-- Witness for `myBind_no_side_effects` at entry 0 of the concrete table. -/
theorem myBind_no_side_effects_witness :
    (0 < fns0.length)
    ∧ (((myBind fns0 (Value.fnRef 0) [recv]).2.get? 0 = fns0.get? 0)
    ∧ ((myBind fns0 (Value.fnRef 0) [recv]).2.length = fns0.length + 1)
    ∧ ((myBind fns0 (Value.fnRef 0) [recv]).1 = Value.fnRef fns0.length)) :=
  ⟨Nat.zero_lt_one, myBind_no_side_effects fns0 (Value.fnRef 0) [recv] 0 Nat.zero_lt_one⟩

/-- Witness for `myBind_deterministic`: the bound closure at `fns1[1]` run
under step budgets 2 and 3 yields the same observable. -/
theorem myBind_deterministic_witness :
    (apply ctx0 fns1 2 (Value.fnRef 1) Value.undef [Value.int 2]
      = some ([⟨0, recv, [Value.int 1, Value.int 2]⟩], Value.undef))
    ∧ (apply ctx0 fns1 3 (Value.fnRef 1) Value.undef [Value.int 2]
      = some ([⟨0, recv, [Value.int 1, Value.int 2]⟩], Value.undef))
    ∧ (([⟨0, recv, [Value.int 1, Value.int 2]⟩], Value.undef)
      = (([⟨0, recv, [Value.int 1, Value.int 2]⟩], Value.undef) : List Call × Value)) :=
  ⟨rfl, rfl,
    myBind_deterministic ctx0 fns1 (Value.fnRef 1) Value.undef [Value.int 2] 2 3
      ([⟨0, recv, [Value.int 1, Value.int 2]⟩], Value.undef)
      ([⟨0, recv, [Value.int 1, Value.int 2]⟩], Value.undef) rfl rfl⟩

/-- Witness for `myBound_ignores_call_site_receiver`: the closure at
`fns1[1]` with call-site receivers `undefined` and `9`, and in
constructor mode. -/
theorem myBound_ignores_call_site_receiver_witness :
    (fns1.get? 1 = some ⟨FnCode.myBound (Value.fnRef 0) [recv, Value.int 1],
        Value.obj [] Value.undef⟩)
    ∧ ((apply ctx0 fns1 2 (Value.fnRef 1) Value.undef [Value.int 2]
      = apply ctx0 fns1 2 (Value.fnRef 1) (Value.int 9) [Value.int 2])
    ∧ (apply ctx0 fns1 2 (Value.fnRef 1) Value.undef [Value.int 2]
      = (apply ctx0 fns1 1 (Value.fnRef 0) recv [Value.int 1, Value.int 2]).map
          (fun q => (q.1, Value.undef)))
    ∧ (construct ctx0 fns1 2 (Value.fnRef 1) [Value.int 2]
      = (apply ctx0 fns1 1 (Value.fnRef 0) recv [Value.int 1, Value.int 2]).map
          (fun q => (q.1, Value.obj [] (Value.obj [] Value.undef))))) :=
  ⟨rfl,
    myBound_ignores_call_site_receiver ctx0 fns1 1 1 (Value.fnRef 0)
      (Value.obj [] Value.undef) Value.undef (Value.int 9) [recv, Value.int 1]
      [Value.int 2] rfl⟩
